import Mathlib

/-
Verification of the Hacker Package Manager backend
(HackerOS-Linux-System/Hacker-Package-Manager, source-code/backend/src/).

The development shallowly embeds the backend's data model and operations:
bytes are Nat values below 256, machine words are Nat values reduced
modulo 2^32, directory trees are finite inductive trees, and the process
effects (filesystem writes, renames, stderr/stdout, exit codes) are made
explicit as data so that each invocation becomes a pure function.

The repository holds two variants of several backend functions: the
monolithic source-code/backend/src/main.rs (a complete program: it
declares no modules) and the modular files state.rs / verify.rs /
manifest.rs / sandbox.rs / error.rs.  Where the two variants differ both
are embedded, in namespaces MainRs and StateRs / VerifyRs respectively.
-/

set_option maxRecDepth 100000

namespace HPM

/-! ## SHA-256 (sha2 crate as used by verify.rs and main.rs)

Executable SHA-256 over byte lists; words are Nat reduced mod 2^32. -/

def M32 : Nat := 4294967296

def add32 (a b : Nat) : Nat := (a + b) % M32

def rotr (n x : Nat) : Nat := ((x >>> n) ||| (x <<< (32 - n))) % M32

def shr32 (n x : Nat) : Nat := x >>> n

def bnot32 (x : Nat) : Nat := x ^^^ (M32 - 1)

def bsig0 (x : Nat) : Nat := (rotr 2 x) ^^^ (rotr 13 x) ^^^ (rotr 22 x)

def bsig1 (x : Nat) : Nat := (rotr 6 x) ^^^ (rotr 11 x) ^^^ (rotr 25 x)

def ssig0 (x : Nat) : Nat := (rotr 7 x) ^^^ (rotr 18 x) ^^^ (shr32 3 x)

def ssig1 (x : Nat) : Nat := (rotr 17 x) ^^^ (rotr 19 x) ^^^ (shr32 10 x)

def ch (x y z : Nat) : Nat := (x &&& y) ^^^ ((bnot32 x) &&& z)

def maj (x y z : Nat) : Nat := (x &&& y) ^^^ (x &&& z) ^^^ (y &&& z)

def kConst : List Nat :=
  [1116352408, 1899447441, 3049323471, 3921009573, 961987163,
   1508970993, 2453635748, 2870763221, 3624381080, 310598401,
   607225278, 1426881987, 1925078388, 2162078206, 2614888103,
   3248222580, 3835390401, 4022224774, 264347078, 604807628,
   770255983, 1249150122, 1555081692, 1996064986, 2554220882,
   2821834349, 2952996808, 3210313671, 3336571891, 3584528711,
   113926993, 338241895, 666307205, 773529912, 1294757372,
   1396182291, 1695183700, 1986661051, 2177026350, 2456956037,
   2730485921, 2820302411, 3259730800, 3345764771, 3516065817,
   3600352804, 4094571909, 275423344, 430227734, 506948616,
   659060556, 883997877, 958139571, 1322822218, 1537002063,
   1747873779, 1955562222, 2024104815, 2227730452, 2361852424,
   2428436474, 2756734187, 3204031479, 3329325298]

def hInit : List Nat :=
  [1779033703, 3144134277, 1013904242, 2773480762,
   1359893119, 2600822924, 528734635, 1541459225]

/-- Big-endian byte expansion of a value into a fixed number of bytes. -/
def beBytes : Nat → Nat → List Nat
  | 0, _ => []
  | n + 1, v => beBytes n (v / 256) ++ [v % 256]

/-- Big-endian 32-bit words from a byte list (complete groups of four). -/
def toWords : List Nat → List Nat
  | a :: b :: c :: d :: rest => (((a * 256 + b) * 256 + c) * 256 + d) :: toWords rest
  | _ => []

/-- Message-schedule extension of a 16-word block to 64 words. -/
def extendWords (ws : List Nat) : List Nat :=
  (List.range 48).foldl
    (fun acc _ =>
      let n := acc.length
      acc ++ [add32 (add32 (ssig1 (acc.getD (n - 2) 0)) (acc.getD (n - 7) 0))
                    (add32 (ssig0 (acc.getD (n - 15) 0)) (acc.getD (n - 16) 0))])
    ws

def compressBlock (hs : List Nat) (block : List Nat) : List Nat :=
  let w := extendWords (toWords block)
  let fin := (List.range 64).foldl
    (fun st i =>
      match st with
      | [a, b, c, d, e, f, g, h] =>
        let t1 := add32 h (add32 (bsig1 e) (add32 (ch e f g) (add32 (kConst.getD i 0) (w.getD i 0))))
        let t2 := add32 (bsig0 a) (maj a b c)
        [add32 t1 t2, a, b, c, add32 d t1, e, f, g]
      | _ => st)
    hs
  match hs, fin with
  | [h0, h1, h2, h3, h4, h5, h6, h7], [a, b, c, d, e, f, g, h] =>
    [add32 h0 a, add32 h1 b, add32 h2 c, add32 h3 d, add32 h4 e, add32 h5 f, add32 h6 g, add32 h7 h]
  | _, _ => hs

/-- Split a byte list into 64-byte blocks (fuel-based so that it reduces
definitionally; the fuel is the list length, enough for any input). -/
def toBlocksAux : Nat → List Nat → List (List Nat)
  | 0, _ => []
  | _, [] => []
  | fuel + 1, l => l.take 64 :: toBlocksAux fuel (l.drop 64)

def toBlocks (l : List Nat) : List (List Nat) := toBlocksAux l.length l

/-- SHA-256 padding: 0x80, zeros to 56 mod 64, then the bit length big-endian. -/
def padBytes (msg : List Nat) : List Nat :=
  msg ++ [128] ++ List.replicate (((56 + 64) - ((msg.length + 1) % 64)) % 64) 0
      ++ beBytes 8 (msg.length * 8)

def sha256 (msg : List Nat) : List Nat :=
  (((toBlocks (padBytes msg)).foldl compressBlock hInit).map (beBytes 4)).flatten

def hexDigit (n : Nat) : Char :=
  if n < 10 then Char.ofNat (48 + n) else Char.ofNat (87 + n)

def hexEncode (bs : List Nat) : String :=
  String.mk (bs.flatMap (fun b => [hexDigit (b / 16), hexDigit (b % 16)]))

/-! ## Directory trees

A filesystem subtree: a regular file with its byte contents, or a
directory with a finite list of named entries (in on-disk iteration
order). -/

mutual

inductive FsTree where
  | file (data : List Nat)
  | dir (entries : Entries)

/-- The entry list of a directory, as its own inductive (rather than
`List (String × FsTree)`) so that all tree recursions are mutual
structural recursions, which both execute and reduce definitionally. -/
inductive Entries where
  | nil
  | cons (name : String) (child : FsTree) (rest : Entries)

end

def Entries.toList : Entries → List (String × FsTree)
  | .nil => []
  | .cons n t rest => (n, t) :: rest.toList

def Entries.ofList : List (String × FsTree) → Entries
  | [] => .nil
  | (n, t) :: rest => .cons n t (Entries.ofList rest)

/-- Directory from an entry list (notation helper for concrete trees). -/
def dirOf (l : List (String × FsTree)) : FsTree := .dir (Entries.ofList l)

/-- Byte-lexicographic comparison of character lists (Rust compares
`OsStr` file names by bytes; on UTF-8 this agrees with comparing the
code points, which is what is done here). -/
def charListLe : List Char → List Char → Bool
  | [], _ => true
  | _ :: _, [] => false
  | a :: as, b :: bs =>
    if a.toNat = b.toNat then charListLe as bs else Nat.blt a.toNat b.toNat

def strLe (a b : String) : Bool := charListLe a.data b.data

/-- Insertion step of a stable insertion sort on string-keyed pairs. -/
def insertByName {α : Type} (x : String × α) : List (String × α) → List (String × α)
  | [] => [x]
  | y :: ys => if strLe x.1 y.1 then x :: y :: ys else y :: insertByName x ys

/-- Stable insertion sort of string-keyed pairs, ascending by key. -/
def sortByName {α : Type} (l : List (String × α)) : List (String × α) :=
  l.foldr insertByName []

/-- Look up a directory entry by name (none on a file, or when absent). -/
def lookupEntry : FsTree → String → Option FsTree
  | .file _, _ => none
  | .dir es, n => (es.toList.find? (fun e => e.1 = n)).map Prod.snd

mutual

/-- File contents of the tree in walkdir order as configured by
verify.rs `compute_dir_hash`: depth-first, the entries of each directory
visited in ascending order of filename component
(`WalkDir::sort_by(a.file_name().cmp(b.file_name()))`), directories
themselves contributing nothing (`filter is_file`).  Each entry's
subtree is walked first and the named results of one directory are then
ordered by name and concatenated, which yields the walkdir sequence
because sorting the siblings commutes with walking each of them. -/
def walkFiles : FsTree → List (List Nat)
  | .file d => [d]
  | .dir es => ((sortByName (walkEntries es)).map Prod.snd).flatten

def walkEntries : Entries → List (String × List (List Nat))
  | .nil => []
  | .cons n t rest => (n, walkFiles t) :: walkEntries rest

end

namespace VerifyRs

/-- source-code/backend/src/verify.rs `compute_dir_hash`: stream the
walked files' bytes through a single SHA-256 accumulator, hex-encode. -/
def compute_dir_hash (t : FsTree) : String :=
  hexEncode (sha256 (walkFiles t).flatten)

/-- source-code/backend/src/verify.rs `verify`: recompute and compare. -/
def verify (t : FsTree) (checksum : String) : Except String Unit :=
  if compute_dir_hash t = checksum then .ok () else .error "Checksum mismatch"

end VerifyRs

namespace MainRs

/-- source-code/backend/src/main.rs `verify` (lines 358-372): reads only
the single file `info.hk` at the top of `path`, hashes those bytes, and
compares the hex digest with the expected checksum. -/
def verify (t : FsTree) (checksum : String) : Except String Unit :=
  match lookupEntry t "info.hk" with
  | some (.file data) =>
    if hexEncode (sha256 data) = checksum then .ok () else .error "Checksum mismatch"
  | _ => .error "Failed to read info.hk for verify"

end MainRs

mutual

/-- All regular files of a tree paired with their filename components,
in traversal order (used only to state the claim-worded digest below). -/
def claimFiles : FsTree → List (String × List Nat)
  | .file _ => []
  | .dir es => claimEntries es

def claimEntries : Entries → List (String × List Nat)
  | .nil => []
  | .cons n t rest =>
    (match t with
     | .file d => [(n, d)]
     | .dir ds => claimEntries ds) ++ claimEntries rest

end

/-- Digest as worded by the claim and the spec's Checksum paragraph: the
hex SHA-256 of the concatenation of the contents of all regular files of
the tree, the files taken in ascending order of filename component. -/
def claimDigest (t : FsTree) : String :=
  hexEncode (sha256 ((sortByName (claimFiles t)).map Prod.snd).flatten)

/-! ## State registry (state.rs, and the duplicate in main.rs) -/

def STATE_PATH : String := "/var/lib/hpm/state.json"

def mapLookup {α : Type} (k : String) : List (String × α) → Option α
  | [] => none
  | (k2, v) :: rest => if k2 = k then some v else mapLookup k rest

/-- HashMap/IndexMap-style insert: replace the value in place when the
key is present, append otherwise. -/
def mapInsert {α : Type} (k : String) (v : α) : List (String × α) → List (String × α)
  | [] => [(k, v)]
  | (k2, v2) :: rest => if k2 = k then (k, v) :: rest else (k2, v2) :: mapInsert k v rest

/-- The registry: package name → version → checksum hex. -/
structure State where
  packages : List (String × List (String × String))
deriving DecidableEq

/-- State::default(): empty registry. -/
def defaultState : State := ⟨[]⟩

def registryLookup (s : State) (name version : String) : Option String :=
  (mapLookup name s.packages).bind (mapLookup version)

/-- Contents of the file at STATE_PATH: absent, present but not a valid
serialized registry, or a serialized registry (the serde serialization
is abstracted to the registry value it denotes). -/
inductive StateFile where
  | absent
  | corrupt
  | good (s : State)
deriving DecidableEq

/-- `load_state` (identical in state.rs:14-20 and main.rs:644-650): a
missing file is the default registry, an unparseable file is an error. -/
def load_state : StateFile → Except String State
  | .absent => .ok defaultState
  | .corrupt => .error "Failed to parse state"
  | .good s => .ok s

/-- Filesystem effects of a state save, for the atomicity claim. -/
inductive FsWriteOp where
  | write (path : String) (content : State)
  | rename (src dst : String)
deriving DecidableEq

/-- The pure modify step of `update_state` (identical in state.rs:30-38
and main.rs:658-666): `entry(name).or_insert_with(new).insert(version,
checksum)` on the loaded registry. -/
def update_packages (s : State) (name version checksum : String) : State :=
  ⟨mapInsert name (mapInsert version checksum ((mapLookup name s.packages).getD []))
    s.packages⟩

/-- `update_state`: load, modify, save; the saved file contents. -/
def update_state (name version checksum : String) (f : StateFile) :
    Except String StateFile :=
  match load_state f with
  | .error e => .error e
  | .ok s => .ok (.good (update_packages s name version checksum))

namespace StateRs

/-- state.rs `save_state` (lines 22-28): write the serialized registry
to `<STATE_PATH>.tmp`, then rename the temp file over STATE_PATH. -/
def save_state_ops (s : State) : List FsWriteOp :=
  [.write (STATE_PATH ++ ".tmp") s, .rename (STATE_PATH ++ ".tmp") STATE_PATH]

end StateRs

namespace MainRs

/-- main.rs `save_state` (lines 652-656): a single direct `fs::write` of
the serialized registry to STATE_PATH; no temp file and no rename. -/
def save_state_ops (s : State) : List FsWriteOp := [.write STATE_PATH s]

end MainRs

/-! ## Manifest loading (`Manifest::load_info`, identical in
manifest.rs:28-147 and main.rs:48-185)

The external hk parser (`load_hk_file` + `resolve_interpolations`) is an
out-of-scope collaborator per the spec; `load_info` receives its result:
a tree of maps, strings and booleans. -/

inductive HkValue where
  | str (s : String)
  | boolean (b : Bool)
  | table (entries : List (String × HkValue))

def as_string : HkValue → Except String String
  | .str s => .ok s
  | _ => .error "not a string"

def as_bool : HkValue → Except String Bool
  | .boolean b => .ok b
  | _ => .error "not a bool"

def as_map : HkValue → Except String (List (String × HkValue))
  | .table es => .ok es
  | _ => .error "not a map"

structure Sandbox where
  network : Bool
  filesystem : List String
  gui : Bool
  dev : Bool
deriving DecidableEq

structure Manifest where
  name : String
  version : String
  authors : String
  license : String
  summary : String
  long : String
  system_specs : List (String × String)
  deps : List (String × String)
  bins : List String
  sandbox : Sandbox
  install_commands : List String
deriving DecidableEq

/-- The key-set submap loop of `load_info` (used verbatim for `bins`,
`sandbox.filesystem` and `install.commands`): keep a key iff its value
is the empty string, fail with `errMsg` iff a value is not a string. -/
def keySetFold : List (String × HkValue) → String → Except String (List String)
  | [], _ => .ok []
  | (k, v) :: rest, errMsg =>
    match as_string v with
    | .error _ => .error errMsg
    | .ok s =>
      match keySetFold rest errMsg with
      | .error e => .error e
      | .ok l => .ok (if s = "" then k :: l else l)

/-- The `[specs]` loop: every non-`dependencies` key must be a string. -/
def specsFold : List (String × HkValue) → List (String × String) →
    Except String (List (String × String))
  | [], acc => .ok acc
  | (k, v) :: rest, acc =>
    if k = "dependencies" then specsFold rest acc
    else
      match as_string v with
      | .error _ => .error "Invalid spec value"
      | .ok s => specsFold rest (mapInsert k s acc)

/-- The `dependencies` loop: every value must be a string. -/
def depsFold : List (String × HkValue) → List (String × String) →
    Except String (List (String × String))
  | [], acc => .ok acc
  | (k, v) :: rest, acc =>
    match as_string v with
    | .error _ => .error "Invalid dep value"
    | .ok s => depsFold rest (mapInsert k s acc)

/-- The `if let Some(map) = ...` wrapper around a key-set loop: a missing
or non-map submap yields the empty list, a present one is folded. -/
def keySetOpt (sub : Option (List (String × HkValue))) (errMsg : String) :
    Except String (List String) :=
  match sub with
  | none => .ok []
  | some m => keySetFold m errMsg

/-- The `if let Some(s) = specs` wrapper around the `[specs]` loop. -/
def specsOpt (specs : Option (List (String × HkValue))) :
    Except String (List (String × String)) :=
  match specs with
  | none => .ok []
  | some s => specsFold s []

/-- The `if let Some(d) = ...dependencies...` wrapper. -/
def depsOpt (sub : Option (List (String × HkValue))) :
    Except String (List (String × String)) :=
  match sub with
  | none => .ok []
  | some d => depsFold d []

/-- Required string field of `[metadata]`. -/
def reqString (m : List (String × HkValue)) (k missErr invErr : String) :
    Except String String :=
  match mapLookup k m with
  | none => .error missErr
  | some v =>
    match as_string v with
    | .ok s => .ok s
    | .error _ => .error invErr

def load_info (config : List (String × HkValue)) : Except String Manifest := do
  let metadata ←
    match mapLookup "metadata" config with
    | none => Except.error "Missing [metadata] section"
    | some v =>
      match as_map v with
      | .ok m => Except.ok m
      | .error _ => Except.error "Invalid metadata"
  let name ← reqString metadata "name" "Missing name" "Invalid name"
  let version ← reqString metadata "version" "Missing version" "Invalid version"
  let authors ← reqString metadata "authors" "Missing authors" "Invalid authors"
  let license ← reqString metadata "license" "Missing license" "Invalid license"
  let description := (mapLookup "description" config).bind (fun v => (as_map v).toOption)
  let summary :=
    ((description.bind (mapLookup "summary")).bind (fun v => (as_string v).toOption)).getD ""
  let long :=
    ((description.bind (mapLookup "long")).bind (fun v => (as_string v).toOption)).getD ""
  let specs := (mapLookup "specs" config).bind (fun v => (as_map v).toOption)
  let system_specs ← specsOpt specs
  let deps ← depsOpt ((specs.bind (mapLookup "dependencies")).bind
    (fun v => (as_map v).toOption))
  let bins ← keySetOpt ((mapLookup "bins" metadata).bind (fun v => (as_map v).toOption))
    "Invalid bin value"
  let sandbox_sec ←
    match mapLookup "sandbox" config with
    | none => Except.error "Missing [sandbox] section"
    | some v =>
      match as_map v with
      | .ok m => Except.ok m
      | .error _ => Except.error "Invalid sandbox"
  let network := ((mapLookup "network" sandbox_sec).bind (fun v => (as_bool v).toOption)).getD false
  let gui := ((mapLookup "gui" sandbox_sec).bind (fun v => (as_bool v).toOption)).getD false
  let dev := ((mapLookup "dev" sandbox_sec).bind (fun v => (as_bool v).toOption)).getD false
  let filesystem ← keySetOpt
    ((mapLookup "filesystem" sandbox_sec).bind (fun v => (as_map v).toOption))
    "Invalid fs value"
  let install_commands ← keySetOpt
    (((mapLookup "install" config).bind (fun v => (as_map v).toOption)).bind
      (fun inst => (mapLookup "commands" inst).bind (fun v => (as_map v).toOption)))
    "Invalid cmd value"
  pure { name, version, authors, license, summary, long, system_specs, deps, bins,
         sandbox := { network, filesystem, gui, dev }, install_commands }

/-! ## Sandbox child: the payload exec (sandbox.rs `exec_in_sandbox`,
lines 273-295; the monolithic main.rs lines 600-624 is the same code
inline).  The mount and namespace system calls are not modelled; what is
modelled is the data handed to `execve`: program, argument vector and
environment vector, plus the `env::set_var` effect on the child process
environment (sandbox.rs line 165 / main.rs line 490). -/

structure ExecCall where
  prog : String
  args : List String
  env : List (String × String)
deriving DecidableEq

def joinAndAnd : List String → String
  | [] => ""
  | [c] => c
  | c :: rest => c ++ " && " ++ joinAndAnd rest

/-- The `execve` performed by the sandbox child; its environment
argument is the empty slice `&[] as &[&CStr]` in both sources. -/
def exec_in_sandbox (isInstall : Bool) (install_commands : List String)
    (bin : Option String) (extraArgs : List String) : Option ExecCall :=
  if isInstall then
    let installCmd :=
      if install_commands.isEmpty then "echo \x27Isolated install complete\x27"
      else joinAndAnd install_commands
    some ⟨"/bin/sh", ["-c", installCmd], []⟩
  else
    match bin with
    | some b => some ⟨"/app/" ++ b, ("/app/" ++ b) :: extraArgs, []⟩
    | none => none

/-- Process environment of the sandbox child after `setup_mounts`: the
backend reads DISPLAY once before forking and, when `sandbox.gui` is
true, re-exports it into the child process via `env::set_var`.  Only
this delta matters, because `execve` then replaces the environment with
its explicit (empty) vector. -/
def childEnvAfterSetup (gui : Bool) (display : Option String) : List (String × String) :=
  match gui, display with
  | true, some d => [("DISPLAY", d)]
  | _, _ => []

/-- The exec call of a sandboxed payload for a given manifest: policy
`m.sandbox`, mode `isInstall`, binary `bin` with `extraArgs`. -/
def sandboxExec (m : Manifest) (isInstall : Bool) (bin : Option String)
    (extraArgs : List String) : Option ExecCall :=
  exec_in_sandbox isInstall m.install_commands bin extraArgs

namespace MainRs

/-! ## The install transaction (main.rs `install`, lines 295-331) -/

/-- The slice of the filesystem that `install name version path checksum`
touches: the tree at `path`, the tree at `path ++ ".tmp"`, and the state
registry file. -/
structure World where
  finalTree : Option FsTree
  tmpTree : Option FsTree
  stateFile : StateFile

/-- The claim-relevant steps of one install execution, in order. -/
inductive Ev where
  | manifest | sandbox | verify | rename | update
deriving DecidableEq

/-- POSIX `fs::rename` of a staged child onto `<tmp>/<name>`: a file
overwrites a file, a directory replaces an empty directory, any other
existing target is an error. -/
def renameInto (top : List (String × FsTree)) (n : String) (t : FsTree) :
    Except String (List (String × FsTree)) :=
  match mapLookup n top, t with
  | none, _ => .ok (top ++ [(n, t)])
  | some (.file _), .file _ => .ok (mapInsert n t top)
  | some (.dir .nil), .dir _ => .ok (mapInsert n t top)
  | _, _ => .error "Move failed"

def moveLoop : List (String × FsTree) → List (String × FsTree) →
    Except String (List (String × FsTree))
  | [], top => .ok top
  | (n, t) :: rest, top =>
    match renameInto top n t with
    | .error e => .error e
    | .ok top2 => moveLoop rest top2

/-- The legacy `contents/` flattening step of install (lines 299-309):
when `<tmp>/contents` exists, move each of its children up one level and
remove the emptied directory.  On failure install aborts immediately;
the partially moved staging tree is not tracked further because nothing
later reads it. -/
def flattenContents : FsTree → Except String FsTree
  | .file d => .ok (.file d)
  | .dir es =>
    match mapLookup "contents" es.toList with
    | none => .ok (.dir es)
    | some (.file _) => .error "Move failed"
    | some (.dir cs) =>
      match moveLoop cs.toList es.toList with
      | .error e => .error e
      | .ok top => .ok (dirOf (top.filter (fun e => e.1 != "contents")))

structure InstallOutcome where
  res : Except String Unit
  world : World
  events : List Ev

/-- `fs::create_dir_all(&tmp_path)` (line 297): creates the staging
directory when absent, is a no-op on an existing directory, and fails
when a regular file is in the way. -/
def createTmpDir : Option FsTree → Except String FsTree
  | some (.file _) => .error "Failed to create tmp directory"
  | t => .ok (t.getD (.dir .nil))

/-- `fs::rename(&tmp_path, path)` (line 323): renaming a directory onto
a missing path or onto an empty directory succeeds; onto a regular file
or a non-empty directory it fails. -/
def renameOntoFinal : Option FsTree → Except String Unit
  | some (.file _) => .error "Rename failed"
  | some (.dir (.cons _ _ _)) => .error "Rename failed"
  | _ => .ok ()

/-- main.rs `install` (lines 295-331), literally in source order:
create the staging directory, flatten `contents/`, load the manifest
(external parse = `configRes`, then `load_info`), run the sandbox in
install mode (`sandboxRes`: `none` is a non-zero exit; `some t` is
success, with `t` the staging tree as the install commands left it),
verify the staging tree against the checksum, rename the staging tree
onto the final path, update the state registry.  There is no backup of
a pre-existing final tree and no rollback. -/
def install (packageName version checksum : String) (w : World)
    (configRes : Except String (List (String × HkValue)))
    (sandboxRes : Option FsTree) : InstallOutcome :=
  match createTmpDir w.tmpTree with
  | .error e => ⟨.error e, w, []⟩
  | .ok tmp0 =>
    match flattenContents tmp0 with
    | .error e => ⟨.error e, { w with tmpTree := some tmp0 }, []⟩
    | .ok tmp1 =>
      let w1 : World := { w with tmpTree := some tmp1 }
      match configRes with
      | .error e => ⟨.error ("Failed to load info.hk: " ++ e), w1, [.manifest]⟩
      | .ok config =>
        match load_info config with
        | .error e => ⟨.error e, w1, [.manifest]⟩
        | .ok _ =>
          match sandboxRes with
          | none => ⟨.error "Sandbox setup failed", w1, [.manifest, .sandbox]⟩
          | some tmp2 =>
            let w2 : World := { w1 with tmpTree := some tmp2 }
            match MainRs.verify tmp2 checksum with
            | .error e => ⟨.error e, w2, [.manifest, .sandbox, .verify]⟩
            | .ok _ =>
              match renameOntoFinal w2.finalTree with
              | .error e => ⟨.error e, w2, [.manifest, .sandbox, .verify, .rename]⟩
              | .ok _ =>
                let w3 : World :=
                  { finalTree := some tmp2, tmpTree := none, stateFile := w2.stateFile }
                match update_state packageName version checksum w3.stateFile with
                | .error e =>
                  ⟨.error e, w3, [.manifest, .sandbox, .verify, .rename, .update]⟩
                | .ok sf2 =>
                  ⟨.ok (), { w3 with stateFile := sf2 },
                    [.manifest, .sandbox, .verify, .rename, .update]⟩

/-! ## Command dispatch (main.rs `main`, lines 227-293) -/

inductive OutLine where
  | successTrue
  | successPkg (name : String)
deriving DecidableEq

inductive StderrOut where
  | silent
  | errJson (code : Nat) (msg : String)
  | plain (msg : String)
deriving DecidableEq

structure Outcome where
  exitCode : Nat
  stderr : StderrOut
  stdout : List OutLine
deriving DecidableEq

/-- Results of the four transaction functions, abstracted: the
dispatcher inspects only success or the error message. -/
structure OpResults where
  installRes : Except String Unit
  removeRes : Except String Unit
  verifyRes : Except String Unit
  runRes : Except String Unit

/-- main.rs `main`: argv (after the program name) to process outcome.
`output_error` (lines 215-225 / error.rs 27-37) prints the err JSON and
exits with the numeric code; the `run` arm (lines 282-290) instead exits
1 silently on bad arity and prints a plain non-JSON line on failure. -/
def dispatch : List String → OpResults → Outcome
  | [], _ => ⟨1, .errJson 1 "Invalid arguments", []⟩
  | cmd :: rest, o =>
    if cmd = "install" then
      if rest.length < 4 then
        ⟨1, .errJson 1 "Usage: backend install <package> <version> <path> <checksum>", []⟩
      else
        match o.installRes with
        | .error e => ⟨4, .errJson 4 ("Install failed: " ++ e), []⟩
        | .ok _ => ⟨0, .silent, [.successPkg (rest.getD 0 "")]⟩
    else if cmd = "remove" then
      if rest.length < 3 then
        ⟨1, .errJson 1 "Usage: backend remove <package> <version> <path>", []⟩
      else
        match o.removeRes with
        | .error e => ⟨5, .errJson 5 ("Remove failed: " ++ e), []⟩
        | .ok _ => ⟨0, .silent, [.successPkg (rest.getD 0 "")]⟩
    else if cmd = "verify" then
      if rest.length < 2 then
        ⟨1, .errJson 1 "Usage: backend verify <path> <checksum>", []⟩
      else
        match o.verifyRes with
        | .error e => ⟨6, .errJson 6 ("Verification failed: " ++ e), []⟩
        | .ok _ => ⟨0, .silent, [.successTrue]⟩
    else if cmd = "run" then
      if rest.length < 2 then ⟨1, .silent, []⟩
      else
        match o.runRes with
        | .error e => ⟨1, .plain ("Run failed: " ++ e), []⟩
        | .ok _ => ⟨0, .silent, []⟩
    else ⟨99, .errJson 99 "Unknown command", []⟩

end MainRs

/-! ## Helper lemmas -/

theorem mapLookup_mapInsert_self {α : Type} (k : String) (v : α) (l : List (String × α)) :
    mapLookup k (mapInsert k v l) = some v := by
  induction l with
  | nil => simp [mapInsert, mapLookup]
  | cons hd tl ih =>
    by_cases h : hd.1 = k
    · simp [mapInsert, mapLookup, h]
    · simpa [mapInsert, mapLookup, h] using ih

theorem mapLookup_mapInsert_ne {α : Type} (k k2 : String) (v : α) (l : List (String × α))
    (h : k2 ≠ k) : mapLookup k2 (mapInsert k v l) = mapLookup k2 l := by
  induction l with
  | nil => simp [mapInsert, mapLookup, Ne.symm h]
  | cons hd tl ih =>
    by_cases h2 : hd.1 = k
    · simp [mapInsert, mapLookup, h2, Ne.symm h]
    · by_cases h3 : hd.1 = k2 <;> simp [mapInsert, mapLookup, h2, h3, h, ih]

theorem registryLookup_update_self (s : State) (n v c : String) :
    registryLookup (update_packages s n v c) n v = some c := by
  simp [registryLookup, update_packages, mapLookup_mapInsert_self, Option.bind]

theorem update_state_ok_inv (n v c : String) (f sf : StateFile)
    (h : update_state n v c f = .ok sf) :
    ∃ s0, load_state f = .ok s0 ∧ sf = .good (update_packages s0 n v c) := by
  cases f with
  | absent => exact ⟨defaultState, rfl, by simpa [update_state, load_state] using h.symm⟩
  | corrupt => simp [update_state, load_state] at h
  | good s0 => exact ⟨s0, rfl, by simpa [update_state, load_state] using h.symm⟩

/-! ## The claims -/

def c1Tree : FsTree := dirOf [("a.txt", .file [120]), ("info.hk", .file [109])]

/-- Claim C1 fails on the code: on the two-file tree `c1Tree`
(`a.txt` = byte 120, `info.hk` = byte 109) the dispatched verify
operation (main.rs lines 358-372) accepts the checksum that is the
SHA-256 of `info.hk` alone, although the tree digest the claim
describes — which verify.rs `verify`/`compute_dir_hash` computes — is a
different string, and verify.rs rejects that same checksum. -/
theorem c1_verify_hashes_only_info_hk :
    MainRs.verify c1Tree (hexEncode (sha256 [109])) = .ok () ∧
    claimDigest c1Tree ≠ hexEncode (sha256 [109]) ∧
    VerifyRs.compute_dir_hash c1Tree = claimDigest c1Tree ∧
    VerifyRs.verify c1Tree (hexEncode (sha256 [109])) = .error "Checksum mismatch" := by
  refine ⟨rfl, by decide, by decide, ?_⟩
  have h : (VerifyRs.compute_dir_hash c1Tree = hexEncode (sha256 [109])) = False := by decide
  simp [VerifyRs.verify, h]

def c2Staging : FsTree := dirOf [("info.hk", .file [109])]

def c2Cfg : List (String × HkValue) :=
  [("metadata", .table [("name", .str "p"), ("version", .str "1"),
     ("authors", .str "a"), ("license", .str "l")]),
   ("sandbox", .table [])]

def c2World : MainRs.World := ⟨some (dirOf []), some c2Staging, .corrupt⟩

/-- Claim C2 fails on the code: with a pre-existing (empty) tree at the
final path and a corrupt registry file, install renames the staging
tree over the old tree and only then fails in the state update.  The
invocation fails, yet the pre-call tree at the final path is gone (the
new tree, containing info.hk, sits there) — a third outcome. -/
theorem c2_install_rollback_counterexample :
    (MainRs.install "p" "1" (hexEncode (sha256 [109])) c2World (.ok c2Cfg)
        (some c2Staging)).res = .error "Failed to parse state" ∧
    c2World.finalTree = some (dirOf []) ∧
    lookupEntry (dirOf []) "info.hk" = none ∧
    (MainRs.install "p" "1" (hexEncode (sha256 [109])) c2World (.ok c2Cfg)
        (some c2Staging)).world.finalTree = some c2Staging ∧
    lookupEntry c2Staging "info.hk" = some (.file [109]) ∧
    (MainRs.install "p" "1" (hexEncode (sha256 [109])) c2World (.ok c2Cfg)
        (some c2Staging)).world.stateFile = c2World.stateFile :=
  ⟨rfl, rfl, rfl, rfl, rfl, rfl⟩

/-- Claim C2 amended: if install fails, the registry file is unchanged,
and the tree at the final path is also unchanged unless the rename step
had already happened; on success the new tree (the staging tree as the
sandboxed install commands left it) is at the final path and the saved
registry is the loaded one with (name, version) mapped to the checksum.
A failure after the rename — reachable exactly when the registry file
cannot be parsed — leaves the new tree in place with the registry
unchanged: a third outcome. -/
theorem c2_install_rollback_amended (n v c : String) (w : MainRs.World)
    (cfg : Except String (List (String × HkValue))) (sres : Option FsTree) :
    ((MainRs.install n v c w cfg sres).res = .ok () →
      ((∃ s0, load_state w.stateFile = .ok s0 ∧
          (MainRs.install n v c w cfg sres).world.stateFile =
            .good (update_packages s0 n v c) ∧
          registryLookup (update_packages s0 n v c) n v = some c) ∧
        ∃ t, sres = some t ∧
          (MainRs.install n v c w cfg sres).world.finalTree = some t)) ∧
    (∀ e, (MainRs.install n v c w cfg sres).res = .error e →
      (MainRs.install n v c w cfg sres).world.stateFile = w.stateFile ∧
      (MainRs.Ev.rename ∈ (MainRs.install n v c w cfg sres).events ∨
        (MainRs.install n v c w cfg sres).world.finalTree = w.finalTree)) := by
  rcases h0 : MainRs.createTmpDir w.tmpTree with e0 | tmp0 <;>
    simp only [MainRs.install, h0]
  · simp
  · rcases h1 : MainRs.flattenContents tmp0 with e1 | tmp1 <;> simp only [h1]
    · simp
    · rcases cfg with e2 | config
      · simp
      · rcases h2 : load_info config with e3 | m <;> simp only [h2]
        · simp
        · rcases sres with - | tmp2
          · simp
          · rcases h3 : MainRs.verify tmp2 c with e4 | u <;> simp only [h3]
            · simp
            · rcases h4 : MainRs.renameOntoFinal w.finalTree with e5 | u2 <;>
                simp only [h4]
              · simp
              · rcases h5 : update_state n v c w.stateFile with e6 | sf2 <;>
                  simp only [h5]
                · simp
                · refine ⟨fun hok => ?_, fun e he => by simp at he⟩
                  obtain ⟨s0, hload, hgood⟩ := update_state_ok_inv n v c _ _ h5
                  exact ⟨⟨s0, hload, by simpa using hgood,
                    registryLookup_update_self s0 n v c⟩, tmp2, rfl, rfl⟩

/-- Witness: a successful install at a concrete input, reached through
the amended theorem. -/
theorem c2_install_rollback_amended_witness :
    (MainRs.install "p" "1" (hexEncode (sha256 [109]))
        ⟨none, some c2Staging, .absent⟩ (.ok c2Cfg) (some c2Staging)).res = .ok () ∧
    (MainRs.install "p" "1" (hexEncode (sha256 [109]))
        ⟨none, some c2Staging, .absent⟩ (.ok c2Cfg) (some c2Staging)).world.finalTree =
      some c2Staging := by
  have h := (c2_install_rollback_amended "p" "1" (hexEncode (sha256 [109]))
    ⟨none, some c2Staging, .absent⟩ (.ok c2Cfg) (some c2Staging)).1 rfl
  obtain ⟨-, t, ht, hfin⟩ := h
  cases ht
  exact ⟨rfl, hfin⟩

def c3Staging : FsTree := dirOf [("info.hk", .file [109])]

def c3Cfg : List (String × HkValue) :=
  [("metadata", .table [("name", .str "p"), ("version", .str "1"),
     ("authors", .str "a"), ("license", .str "l")]),
   ("sandbox", .table [])]

def c3World : MainRs.World := ⟨none, some c3Staging, .absent⟩

/-- Claim C3 fails on the code: in a successful install execution the
step sequence places the sandbox (index 1) strictly before the checksum
verification (index 2) — the sandboxed install commands run on a tree
whose checksum has not been verified. -/
theorem c3_sandbox_runs_before_verify_counterexample :
    (MainRs.install "p" "1" (hexEncode (sha256 [109])) c3World (.ok c3Cfg)
        (some c3Staging)).events =
      [MainRs.Ev.manifest, MainRs.Ev.sandbox, MainRs.Ev.verify,
       MainRs.Ev.rename, MainRs.Ev.update] ∧
    [MainRs.Ev.manifest, MainRs.Ev.sandbox, MainRs.Ev.verify,
       MainRs.Ev.rename, MainRs.Ev.update].indexOf MainRs.Ev.sandbox = 1 ∧
    [MainRs.Ev.manifest, MainRs.Ev.sandbox, MainRs.Ev.verify,
       MainRs.Ev.rename, MainRs.Ev.update].indexOf MainRs.Ev.verify = 2 :=
  ⟨rfl, rfl, rfl⟩

/-- Claim C3 amended: in every execution of install the order is the
reverse of the claim — whenever the checksum verification step occurs,
the event sequence begins manifest, sandbox, verify, so the
install-mode sandbox run strictly precedes the verification. -/
theorem c3_sandbox_runs_before_verify_amended (n v c : String) (w : MainRs.World)
    (cfg : Except String (List (String × HkValue))) (sres : Option FsTree) :
    MainRs.Ev.verify ∈ (MainRs.install n v c w cfg sres).events →
      (MainRs.install n v c w cfg sres).events.take 3 =
        [MainRs.Ev.manifest, MainRs.Ev.sandbox, MainRs.Ev.verify] := by
  rcases h0 : MainRs.createTmpDir w.tmpTree with e0 | tmp0 <;>
    simp only [MainRs.install, h0]
  · intro h; simp at h
  · rcases h1 : MainRs.flattenContents tmp0 with e1 | tmp1 <;> simp only [h1]
    · intro h; simp at h
    · rcases cfg with e2 | config
      · intro h; simp at h
      · rcases h2 : load_info config with e3 | m <;> simp only [h2]
        · intro h; simp at h
        · rcases sres with - | tmp2
          · intro h; simp at h
          · rcases h3 : MainRs.verify tmp2 c with e4 | u <;> simp only [h3]
            · exact fun h => rfl
            · rcases h4 : MainRs.renameOntoFinal w.finalTree with e5 | u2 <;>
                simp only [h4]
              · exact fun h => rfl
              · rcases h5 : update_state n v c w.stateFile with e6 | sf2 <;>
                  simp only [h5]
                · exact fun h => rfl
                · exact fun h => rfl

/-- Witness: the amended ordering at a concrete successful install. -/
theorem c3_sandbox_runs_before_verify_amended_witness :
    (MainRs.install "p" "1" (hexEncode (sha256 [109])) c3World (.ok c3Cfg)
        (some c3Staging)).events.take 3 =
      [MainRs.Ev.manifest, MainRs.Ev.sandbox, MainRs.Ev.verify] :=
  c3_sandbox_runs_before_verify_amended "p" "1" (hexEncode (sha256 [109]))
    c3World (.ok c3Cfg) (some c3Staging) (by decide)

/-- Claim C5 fails on the monolithic backend: main.rs `save_state`
(lines 652-656) performs one direct write of the serialized registry to
STATE_PATH — no write to `<STATE_PATH>.tmp` and no rename — while the
module state.rs `save_state` (lines 22-28), which the claim describes,
does write the temp file and rename it over STATE_PATH. -/
theorem c5_save_state_ops (s : State) :
    MainRs.save_state_ops s = [FsWriteOp.write STATE_PATH s] ∧
    StateRs.save_state_ops s =
      [FsWriteOp.write (STATE_PATH ++ ".tmp") s,
       FsWriteOp.rename (STATE_PATH ++ ".tmp") STATE_PATH] :=
  ⟨rfl, rfl⟩

def c8Manifest : Manifest :=
  { name := "guiapp", version := "1.0", authors := "a", license := "MIT",
    summary := "", long := "", system_specs := [], deps := [], bins := ["tool"],
    sandbox := { network := false, filesystem := [], gui := true, dev := false },
    install_commands := [] }

/-- Claim C8 fails on the code: for a manifest with `sandbox.gui = true`
and DISPLAY set to ":0" in the backend's environment, `env::set_var`
does put DISPLAY in the child process environment, but the environment
vector passed to the payload's `execve` is the empty slice in both run
and install mode, so the payload never receives DISPLAY. -/
theorem c8_display_never_reaches_payload :
    c8Manifest.sandbox.gui = true ∧
    childEnvAfterSetup c8Manifest.sandbox.gui (some ":0") = [("DISPLAY", ":0")] ∧
    sandboxExec c8Manifest false (some "tool") [] =
      some ⟨"/app/tool", ["/app/tool"], []⟩ ∧
    (sandboxExec c8Manifest true none []).map ExecCall.env = some [] :=
  ⟨rfl, rfl, rfl, rfl⟩

def stderrCode : MainRs.StderrOut → Option Nat
  | .errJson c _ => some c
  | _ => none

/-- Claim C4 fails on the code: the complete dispatcher (main.rs
227-293) has no verify-signature arm — an invocation with that
subcommand falls through the install/remove/verify/run tests to the
unknown-command case, exiting 99 with the unknown-command err JSON.  No
file is read, no base64 signature is decoded, success-true JSON is
never emitted, and no failure path exits 6. -/
theorem c4_verify_signature_is_unknown_command (path sigB64 : String)
    (o : MainRs.OpResults) :
    MainRs.dispatch ["verify-signature", path, sigB64] o =
      ⟨99, MainRs.StderrOut.errJson 99 "Unknown command", []⟩ :=
  rfl

def c6Cfg : List (String × HkValue) :=
  [("metadata", .table [("name", .str "p"), ("version", .str "1"),
     ("authors", .str "a"), ("license", .str "l"),
     ("bins", .table [("foo", .str "x"), ("bar", .str "")])]),
   ("sandbox", .table [("filesystem", .table [("/opt/data", .str "y")])]),
   ("install", .table [("commands", .table [("make install", .str "z")])])]

def c6Manifest : Manifest :=
  { name := "p", version := "1", authors := "a", license := "l",
    summary := "", long := "", system_specs := [], deps := [], bins := ["bar"],
    sandbox := { network := false, filesystem := [], gui := false, dev := false },
    install_commands := [] }

/-- Claim C6 fails on the code: a manifest whose `bins` maps foo to the
non-empty string x (and similarly `filesystem` and `install.commands`
with non-empty values) loads successfully — no error — and the
offending entries are silently dropped from the resulting lists. -/
theorem c6_nonempty_value_silently_dropped :
    load_info c6Cfg = .ok c6Manifest ∧
    c6Manifest.bins = ["bar"] ∧
    c6Manifest.sandbox.filesystem = [] ∧
    c6Manifest.install_commands = [] :=
  ⟨rfl, rfl, rfl, rfl⟩

/-- The keys a key-set loop keeps: those whose value is the empty
string. -/
def keptKeys (l : List (String × HkValue)) : List String :=
  (l.filter (fun kv => match kv.2 with | .str s => s == "" | _ => false)).map Prod.fst

theorem keySetFold_ok_eq (l : List (String × HkValue)) (msg : String)
    (out : List String) (h : keySetFold l msg = .ok out) : out = keptKeys l := by
  induction l generalizing out with
  | nil =>
    simp only [keySetFold] at h
    cases h
    rfl
  | cons hd tl ih =>
    obtain ⟨k, v⟩ := hd
    cases v with
    | str s =>
      rcases hr : keySetFold tl msg with e | l2 <;>
        simp only [keySetFold, as_string, hr] at h
      · exact Except.noConfusion h
      · injection h with h2
        subst h2
        by_cases hs : s = ""
        · simp [keptKeys, List.filter, hs, ih l2 hr]
        · have hb2 : (s == "") = false := beq_eq_false_iff_ne.mpr hs
          simp [keptKeys, List.filter, hb2, hs, ih l2 hr]
    | boolean b =>
      simp only [keySetFold, as_string] at h
      exact Except.noConfusion h
    | table es =>
      simp only [keySetFold, as_string] at h
      exact Except.noConfusion h

theorem keySetOpt_ok_eq (sub : Option (List (String × HkValue))) (msg : String)
    (out : List String) (h : keySetOpt sub msg = .ok out) :
    out = keptKeys (sub.getD []) := by
  cases sub with
  | none =>
    simp only [keySetOpt] at h
    cases h
    rfl
  | some l => exact keySetFold_ok_eq l msg out h

/-- The `metadata.bins` submap an hk config carries (empty when absent
or when a step of the access path is not a map). -/
def binsSubOf (cfg : List (String × HkValue)) : List (String × HkValue) :=
  (((mapLookup "metadata" cfg).bind (fun v => (as_map v).toOption)).bind
    (fun md => (mapLookup "bins" md).bind (fun v => (as_map v).toOption))).getD []

/-- The `sandbox.filesystem` submap of an hk config. -/
def fsSubOf (cfg : List (String × HkValue)) : List (String × HkValue) :=
  (((mapLookup "sandbox" cfg).bind (fun v => (as_map v).toOption)).bind
    (fun sb => (mapLookup "filesystem" sb).bind (fun v => (as_map v).toOption))).getD []

/-- The `install.commands` submap of an hk config. -/
def cmdSubOf (cfg : List (String × HkValue)) : List (String × HkValue) :=
  ((((mapLookup "install" cfg).bind (fun v => (as_map v).toOption)).bind
    (fun inst => (mapLookup "commands" inst).bind (fun v => (as_map v).toOption)))).getD []

/-- Claim C6 amended: when loading succeeds, each key-set list consists
of exactly the keys whose value is the empty string — an entry with a
non-empty string value is silently dropped, not an error; only a value
that is not a string at all makes loading fail. -/
theorem c6_key_set_submaps_amended (cfg : List (String × HkValue)) (m : Manifest)
    (h : load_info cfg = .ok m) :
    m.bins = keptKeys (binsSubOf cfg) ∧
    m.sandbox.filesystem = keptKeys (fsSubOf cfg) ∧
    m.install_commands = keptKeys (cmdSubOf cfg) := by
  simp only [load_info, bind, Except.bind] at h
  rcases hmd : mapLookup "metadata" cfg with - | mdv <;> simp only [hmd] at h
  · exact Except.noConfusion h
  rcases hmdm : as_map mdv with e | md <;> simp only [hmdm] at h
  · exact Except.noConfusion h
  rcases hn : reqString md "name" "Missing name" "Invalid name" with e | nm <;>
    simp only [hn] at h
  · exact Except.noConfusion h
  rcases hv : reqString md "version" "Missing version" "Invalid version" with e | vr <;>
    simp only [hv] at h
  · exact Except.noConfusion h
  rcases ha : reqString md "authors" "Missing authors" "Invalid authors" with e | au <;>
    simp only [ha] at h
  · exact Except.noConfusion h
  rcases hl : reqString md "license" "Missing license" "Invalid license" with e | li <;>
    simp only [hl] at h
  · exact Except.noConfusion h
  rcases hss : specsOpt ((mapLookup "specs" cfg).bind (fun v => (as_map v).toOption))
      with e | ssp <;> simp only [hss] at h
  · exact Except.noConfusion h
  rcases hdp : depsOpt (((((mapLookup "specs" cfg).bind
      (fun v => (as_map v).toOption)).bind (mapLookup "dependencies")).bind
      (fun v => (as_map v).toOption))) with e | dps <;> simp only [hdp] at h
  · exact Except.noConfusion h
  rcases hbn : keySetOpt ((mapLookup "bins" md).bind (fun v => (as_map v).toOption))
      "Invalid bin value" with e | bns <;> simp only [hbn] at h
  · exact Except.noConfusion h
  rcases hsb : mapLookup "sandbox" cfg with - | sbv <;> simp only [hsb] at h
  · exact Except.noConfusion h
  rcases hsbm : as_map sbv with e | sbm <;> simp only [hsbm] at h
  · exact Except.noConfusion h
  rcases hfs : keySetOpt ((mapLookup "filesystem" sbm).bind (fun v => (as_map v).toOption))
      "Invalid fs value" with e | fsl <;> simp only [hfs] at h
  · exact Except.noConfusion h
  rcases hcm : keySetOpt (((mapLookup "install" cfg).bind
      (fun v => (as_map v).toOption)).bind
      (fun inst => (mapLookup "commands" inst).bind (fun v => (as_map v).toOption)))
      "Invalid cmd value" with e | cmds <;> simp only [hcm] at h
  · exact Except.noConfusion h
  simp only [pure, Except.pure, Except.ok.injEq] at h
  subst h
  have emd : (mapLookup "metadata" cfg).bind (fun v => (as_map v).toOption) = some md := by
    rw [hmd]
    simp [hmdm, Except.toOption, Option.bind]
  have esb : (mapLookup "sandbox" cfg).bind (fun v => (as_map v).toOption) = some sbm := by
    rw [hsb]
    simp [hsbm, Except.toOption, Option.bind]
  refine ⟨?_, ?_, ?_⟩
  · have e1 : binsSubOf cfg =
        ((mapLookup "bins" md).bind (fun v => (as_map v).toOption)).getD [] := by
      simp only [binsSubOf]
      rw [emd]
      rfl
    exact (keySetOpt_ok_eq _ _ _ hbn).trans (by rw [e1])
  · have e2 : fsSubOf cfg =
        ((mapLookup "filesystem" sbm).bind (fun v => (as_map v).toOption)).getD [] := by
      simp only [fsSubOf]
      rw [esb]
      rfl
    exact (keySetOpt_ok_eq _ _ _ hfs).trans (by rw [e2])
  · exact keySetOpt_ok_eq _ _ _ hcm

/-- Witness: the amended key-set characterization at the concrete
config of the counterexample. -/
theorem c6_key_set_submaps_amended_witness :
    c6Manifest.bins = keptKeys (binsSubOf c6Cfg) ∧
    c6Manifest.sandbox.filesystem = keptKeys (fsSubOf c6Cfg) :=
  ⟨(c6_key_set_submaps_amended c6Cfg c6Manifest rfl).1,
   (c6_key_set_submaps_amended c6Cfg c6Manifest rfl).2.1⟩

def c7Ops : MainRs.OpResults := ⟨.ok (), .ok (), .ok (), .ok ()⟩

def c7OpsRunFail : MainRs.OpResults := ⟨.ok (), .ok (), .ok (), .error "boom"⟩

/-- Claim C7 fails on the code: the run subcommand's failures do not
produce the err JSON shape — invoking run with too few arguments exits
1 with nothing on stderr at all, and a failing run exits 1 with a plain
non-JSON line. -/
theorem c7_run_errors_not_json_counterexample :
    MainRs.dispatch ["run"] c7Ops = ⟨1, MainRs.StderrOut.silent, []⟩ ∧
    MainRs.dispatch ["run", "pkg", "bin"] c7OpsRunFail =
      ⟨1, MainRs.StderrOut.plain "Run failed: boom", []⟩ :=
  ⟨rfl, rfl⟩

/-- Claim C7 amended: every failing invocation of a subcommand other
than run writes the err JSON shape on stderr with the process exit
status equal to the JSON code; the run subcommand never writes the
JSON shape — its failures exit 1 either silently (bad arity) or with a
plain text line. -/
theorem c7_error_json_amended (args : List String) (o : MainRs.OpResults) :
    (∀ c m, (MainRs.dispatch args o).stderr = .errJson c m →
      (MainRs.dispatch args o).exitCode = c ∧ args.head? ≠ some "run") ∧
    (∀ m, (MainRs.dispatch args o).stderr = .plain m →
      (MainRs.dispatch args o).exitCode = 1 ∧ args.head? = some "run") ∧
    ((MainRs.dispatch args o).stderr = .silent →
      (MainRs.dispatch args o).exitCode = 0 ∨
      ((MainRs.dispatch args o).exitCode = 1 ∧ args.head? = some "run")) := by
  cases args with
  | nil =>
    refine ⟨fun c m h => ?_, fun m h => ?_, fun h => ?_⟩ <;>
      simp_all [MainRs.dispatch]
  | cons cmd rest =>
    simp only [MainRs.dispatch]
    split
    · split
      · refine ⟨fun c m h => ?_, fun m h => ?_, fun h => ?_⟩ <;> simp_all
      · rcases o.installRes with e | u <;>
          refine ⟨fun c m h => ?_, fun m h => ?_, fun h => ?_⟩ <;> simp_all
    · split
      · split
        · refine ⟨fun c m h => ?_, fun m h => ?_, fun h => ?_⟩ <;> simp_all
        · rcases o.removeRes with e | u <;>
            refine ⟨fun c m h => ?_, fun m h => ?_, fun h => ?_⟩ <;> simp_all
      · split
        · split
          · refine ⟨fun c m h => ?_, fun m h => ?_, fun h => ?_⟩ <;> simp_all
          · rcases o.verifyRes with e | u <;>
              refine ⟨fun c m h => ?_, fun m h => ?_, fun h => ?_⟩ <;> simp_all
        · split
          · split
            · refine ⟨fun c m h => ?_, fun m h => ?_, fun h => ?_⟩ <;> simp_all
            · rcases o.runRes with e | u <;>
                refine ⟨fun c m h => ?_, fun m h => ?_, fun h => ?_⟩ <;> simp_all
          · refine ⟨fun c m h => ?_, fun m h => ?_, fun h => ?_⟩ <;> simp_all

/-- Witness: the amended error-shape property at two concrete
invocations, one non-run (install bad arity: JSON code 1, exit 1) and
one run failure (exit 1, no JSON). -/
theorem c7_error_json_amended_witness :
    (MainRs.dispatch ["install"] c7Ops).exitCode = 1 ∧
    ((MainRs.dispatch ["run"] c7Ops).exitCode = 0 ∨
      ((MainRs.dispatch ["run"] c7Ops).exitCode = 1 ∧
        (["run"] : List String).head? = some "run")) :=
  ⟨((c7_error_json_amended ["install"] c7Ops).1 1
      "Usage: backend install <package> <version> <path> <checksum>" rfl).1,
   (c7_error_json_amended ["run"] c7Ops).2.2 rfl⟩

/-- Claim C9: for every argv and every outcome of the four transaction
functions, the dispatcher's exit code lies in the set 0, 1, 4, 5, 6, 99
— in particular never 2 (PackageNotFound) or 3 (DependencyCycle) — and
any err JSON emitted carries one of the codes 1, 4, 5, 6, 99. -/
theorem c9_exit_codes_closed_set (args : List String) (o : MainRs.OpResults) :
    (MainRs.dispatch args o).exitCode ∈ ([0, 1, 4, 5, 6, 99] : List Nat) ∧
    stderrCode (MainRs.dispatch args o).stderr ∈
      ([none, some 1, some 4, some 5, some 6, some 99] : List (Option Nat)) := by
  match args with
  | [] => simp [MainRs.dispatch, stderrCode]
  | cmd :: rest =>
    simp only [MainRs.dispatch]
    split
    · split
      · simp [stderrCode]
      · rcases o.installRes with e | u <;> simp [stderrCode]
    · split
      · split
        · simp [stderrCode]
        · rcases o.removeRes with e | u <;> simp [stderrCode]
      · split
        · split
          · simp [stderrCode]
          · rcases o.verifyRes with e | u <;> simp [stderrCode]
        · split
          · split
            · simp [stderrCode]
            · rcases o.runRes with e | u <;> simp [stderrCode]
          · simp [stderrCode]

/-- Claim C10: `update_state` changes at most the entry
`packages[name][version]`: any other (package, version) pair resolves
to the same checksum after the update as before; and the saved file is
exactly the loaded registry with that one modification. -/
theorem c10_update_state_frame (s : State) (n v c n2 v2 : String)
    (h : ¬(n2 = n ∧ v2 = v)) :
    registryLookup (update_packages s n v c) n2 v2 = registryLookup s n2 v2 ∧
    ∀ f sf, update_state n v c f = .ok sf →
      ∃ s0, load_state f = .ok s0 ∧ sf = .good (update_packages s0 n v c) := by
  constructor
  · by_cases hn : n2 = n
    · subst hn
      have hv : v2 ≠ v := fun hv => h ⟨rfl, hv⟩
      simp only [registryLookup, update_packages, mapLookup_mapInsert_self]
      cases hm : mapLookup n2 s.packages with
      | none => simp [hm, Option.bind, mapLookup, mapInsert, Ne.symm hv]
      | some sub => simp [hm, Option.bind, mapLookup_mapInsert_ne _ _ _ _ hv]
    · simp [registryLookup, update_packages, mapLookup_mapInsert_ne _ _ _ _ hn]
  · exact fun f sf hu => update_state_ok_inv n v c f sf hu

/-- Witness for the frame theorem at a concrete registry: updating
(p, 2.0) leaves (q, 1.0) and (p, 1.0) untouched. -/
theorem c10_update_state_frame_witness :
    registryLookup (update_packages ⟨[("p", [("1.0", "aa")]), ("q", [("1.0", "bb")])]⟩
        "p" "2.0" "cc") "p" "1.0" = some "aa" ∧
    registryLookup (update_packages ⟨[("p", [("1.0", "aa")]), ("q", [("1.0", "bb")])]⟩
        "p" "2.0" "cc") "q" "1.0" = some "bb" := by
  refine ⟨?_, ?_⟩
  · have h := (c10_update_state_frame ⟨[("p", [("1.0", "aa")]), ("q", [("1.0", "bb")])]⟩
      "p" "2.0" "cc" "p" "1.0" (by simp)).1
    rw [h]; rfl
  · have h := (c10_update_state_frame ⟨[("p", [("1.0", "aa")]), ("q", [("1.0", "bb")])]⟩
      "p" "2.0" "cc" "q" "1.0" (by simp)).1
    rw [h]; rfl

end HPM
